import Mathlib

/-!
Verification of `hack/cvo-unmanage.py`.

The script fetches the `clusterversion/version` resource as JSON, loops
applying the raw bytes until the `kubectl.kubernetes.io/last-applied-configuration`
annotation is present, then merges an override entry for a (namespace, name)
pair into `spec.overrides`, and finally re-applies the document when it was
modified.

We shallowly embed the JSON data model and the script's operations.  Python
dictionaries produced by `json.loads` are modelled as association lists
(`json.loads` never produces duplicate keys; all our operations use
first-occurrence semantics, matching dict semantics on duplicate-free lists).
Python exceptions (AttributeError / TypeError / json parse errors) are
modelled as `Except.error`: they propagate unhandled and terminate the
process with a non-zero status.
-/

set_option autoImplicit false

namespace CvoUnmanage

/-- JSON values as produced by `json.loads`.  Numbers are modelled as
integers (the script never computes with numbers; only their Python
truthiness could matter, and `0` is the falsy integer). -/
inductive Json where
  | null
  | bool (b : Bool)
  | num  (n : Int)
  | str  (s : String)
  | arr  (elems : List Json)
  | obj  (fields : List (String × Json))

/-- Python dict lookup `d[k]` / `d.get(k)` without default: the value at the
first occurrence of key `k`. -/
def dGet? (fields : List (String × Json)) (k : String) : Option Json :=
  match fields with
  | [] => none
  | (k', v) :: rest => if k' == k then some v else dGet? rest k

/-- Python `d.get(k)`: `None` (our `Json.null`) when the key is absent. -/
def dGet (fields : List (String × Json)) (k : String) : Json :=
  (dGet? fields k).getD Json.null

/-- Python `d.get(k, v)`: default `v` when the key is absent. -/
def dGetD (fields : List (String × Json)) (k : String) (v : Json) : Json :=
  (dGet? fields k).getD v

/-- Python dict assignment `d[k] = v`: replace the value at the first
occurrence of `k` in place, or append the key at the end (dict insertion
order) when absent. -/
def dSet (fields : List (String × Json)) (k : String) (v : Json) :
    List (String × Json) :=
  match fields with
  | [] => [(k, v)]
  | (k', v') :: rest =>
      if k' == k then (k, v) :: rest else (k', v') :: dSet rest k v

/-- Python `d.setdefault(k, v)`: return the stored value when `k` is
present, otherwise insert `v` at the end and return it.  The first component
is the updated dict, the second the returned value. -/
def dSetdefault (fields : List (String × Json)) (k : String) (v : Json) :
    List (String × Json) × Json :=
  match dGet? fields k with
  | some w => (fields, w)
  | none => (fields ++ [(k, v)], v)

/-- Python `==` between a JSON-decoded value and a `str`: only a string with
the same characters compares equal (`None == s`, `True == s`, `3 == s`,
`[..] == s`, `{..} == s` are all `False` for a Python string `s`). -/
def pyEqStr : Json → String → Bool
  | Json.str s, t => s == t
  | _, _ => false

/-- Python truthiness of a JSON-decoded value (`None`, `False`, `0`, `""`,
`[]`, `{}` are falsy, everything else truthy). -/
def Json.truthy : Json → Bool
  | .null => false
  | .bool b => b
  | .num n => !(n == 0)
  | .str s => !(s == "")
  | .arr elems => !elems.isEmpty
  | .obj fields => !fields.isEmpty

/-- Recognizer for JSON objects (Python dicts). -/
def Json.isObj : Json → Bool
  | .obj _ => true
  | _ => false

/-- The new override entry appended by the script (lines 34-40 of
`cvo-unmanage.py`), in the literal's field order. -/
def newEntry (ns nm : String) : Json :=
  Json.obj [("group", Json.str "apps/v1"),
            ("kind", Json.str "Deployment"),
            ("name", Json.str nm),
            ("namespace", Json.str ns),
            ("unmanaged", Json.bool true)]

/-- The match test of the merge loop (line 28):
`override.get('name') == name and override.get('namespace') == namespace`.
A non-dict value can never satisfy it (in Python `.get` would raise before
the comparison; see `mergeLoop`). -/
def isMatch (ns nm : String) : Json → Bool
  | Json.obj fs => pyEqStr (dGet fs "name") nm && pyEqStr (dGet fs "namespace") ns
  | _ => false

/-- Does an override entry carry `unmanaged` equal to the boolean `True`? -/
def unmanagedIsTrue : Json → Bool
  | Json.obj fs =>
      match dGet fs "unmanaged" with
      | Json.bool true => true
      | _ => false
  | _ => false

/-- Python truthiness of an entry's `unmanaged` field, `None` when the field
is absent: the test of line 29, `not override.get('unmanaged')`, negated. -/
def unmanagedTruthy : Json → Bool
  | Json.obj fs => (dGet fs "unmanaged").truthy
  | _ => false

/-- The mutation of line 30, `override['unmanaged'] = True`, on an entry. -/
def setUnmanagedTrue : Json → Json
  | Json.obj fs => Json.obj (dSet fs "unmanaged" (Json.bool true))
  | j => j

/-- The for/else merge loop of `cvo-unmanage.py` lines 26-41, acting on the
`overrides` list.  Scanning an entry that is not a dict raises
`AttributeError` in Python (`override.get`), modelled as `Except.error`;
entries after the first match are never examined (the loop `break`s).
Returns the new list together with the `modified` flag. -/
def mergeLoop (ns nm : String) : List Json → Except String (List Json × Bool)
  | [] => Except.ok ([newEntry ns nm], true)
  | Json.obj fs :: rest =>
      if pyEqStr (dGet fs "name") nm && pyEqStr (dGet fs "namespace") ns then
        if (dGet fs "unmanaged").truthy then
          Except.ok (Json.obj fs :: rest, false)
        else
          Except.ok (Json.obj (dSet fs "unmanaged" (Json.bool true)) :: rest, true)
      else
        match mergeLoop ns nm rest with
        | Except.ok (rest', modified) => Except.ok (Json.obj fs :: rest', modified)
        | Except.error e => Except.error e
  | _ :: _ => Except.error "AttributeError: override entry has no attribute get"

/-- The navigation of line 23,
`clusterversion.setdefault('spec', {}).setdefault('overrides', [])`:
returns the top-level fields after the first `setdefault`, the `spec` fields
after the second `setdefault`, and the overrides list.  A non-dict document
or non-dict `spec` raises `AttributeError`; a non-list `overrides` value
always ends in an unhandled error in Python (iterating a number is a
`TypeError`; iterating a string or dict feeds non-dict items or, when empty,
reaches `overrides.append` which strings and dicts lack), so it is
modelled as an immediate error. -/
def navigate (doc : Json) :
    Except String (List (String × Json) × List (String × Json) × List Json) :=
  match doc with
  | Json.obj fields =>
      match dSetdefault fields "spec" (Json.obj []) with
      | (fields1, Json.obj sfields) =>
          match dSetdefault sfields "overrides" (Json.arr []) with
          | (sfields1, Json.arr ovs) => Except.ok (fields1, sfields1, ovs)
          | _ => Except.error "TypeError: spec.overrides is not a list"
      | _ => Except.error "AttributeError: spec has no attribute setdefault"
  | _ => Except.error "AttributeError: document has no attribute setdefault"

/-- Write the (possibly new) overrides list back into the document.  In
Python this happens by aliasing: the list returned by `setdefault` is the
very object inside the document, so mutating it mutates the document. -/
def rebuild (fields sfields : List (String × Json)) (ovs : List Json) : Json :=
  Json.obj (dSet fields "spec" (Json.obj (dSet sfields "overrides" (Json.arr ovs))))

/-- The whole merge step of the script (lines 23-41): ensure `spec` and
`spec.overrides` exist, run the merge loop, and return the resulting
document together with the `modified` flag. -/
def merge_override (ns nm : String) (doc : Json) : Except String (Json × Bool) :=
  match navigate doc with
  | Except.ok (fields1, sfields1, ovs) =>
      match mergeLoop ns nm ovs with
      | Except.ok (ovs', modified) =>
          Except.ok (rebuild fields1 sfields1 ovs', modified)
      | Except.error e => Except.error e
  | Except.error e => Except.error e

/-- The overrides list the merge will operate on: `spec.overrides` when
present, defaulting a missing `spec` or a missing `overrides` to the empty
list, and `none` on the shapes where navigation raises. -/
def getOverrides (doc : Json) : Option (List Json) :=
  match navigate doc with
  | Except.ok (_, _, ovs) => some ovs
  | Except.error _ => none

/-- The annotation key tested at line 17. -/
def lastAppliedKey : String := "kubectl.kubernetes.io/last-applied-configuration"

/-- Python substring containment `needle in haystack` for strings. -/
def strContains (haystack needle : String) : Bool :=
  (haystack.splitOn needle).length ≥ 2

/-- Lines 16-17:
`annotations = clusterversion.get('metadata', {}).get('annotations', {})`
followed by `'kubectl.kubernetes.io/last-applied-configuration' in annotations`.
A non-dict document or non-dict `metadata` raises `AttributeError` at
`.get`; `in` on a non-dict `annotations` is key containment for dicts,
substring for strings, membership for lists, and `TypeError` otherwise. -/
def hasLastApplied (doc : Json) : Except String Bool :=
  match doc with
  | Json.obj fields =>
      match dGetD fields "metadata" (Json.obj []) with
      | Json.obj mfields =>
          match dGetD mfields "annotations" (Json.obj []) with
          | Json.obj afields => Except.ok (dGet? afields lastAppliedKey).isSome
          | Json.str s => Except.ok (strContains s lastAppliedKey)
          | Json.arr elems =>
              Except.ok (elems.any (fun e => pyEqStr e lastAppliedKey))
          | _ => Except.error "TypeError: argument of type is not iterable"
      | _ => Except.error "AttributeError: metadata has no attribute get"
  | _ => Except.error "AttributeError: document has no attribute get"

/-- One raw `oc get ... -o json` output: either bytes that parse to a JSON
document, or bytes on which `json.loads` raises. -/
inductive Raw where
  | parsed (doc : Json)
  | malformed (bytes : String)

/-- The external effects of one run, in order: a fetch
(`oc get clusterversion/version -o json`), a bootstrap apply of the raw
fetched bytes (`oc apply -f -` with `input=proc.stdout`, line 21), or the
final apply of the serialized merged document (lines 44-46). -/
inductive Event where
  | fetch
  | applyRaw (r : Raw)
  | applyDoc (doc : Json)

/-- How a run ends: normal termination, an unhandled Python exception
(non-zero exit status), or — since the `while True` loop of lines 11-21 is
unbounded — still waiting on further fetches when the modelled fetch stream
runs out. -/
inductive ProgOutcome where
  | done (doc : Json) (modified : Bool)
  | fatalParse
  | fatalStructural (msg : String)
  | stillLooping

/-- The whole script, run against a stream of fetch results: the bootstrap
loop of lines 11-21 (fetch; parse, fatally on malformed JSON; break when the
last-applied annotation is present, else apply the raw bytes unmodified and
refetch), then the merge of lines 23-41, then the conditional apply of
lines 44-46.  Returns the ordered trace of external events and the
outcome. -/
def runProgram (ns nm : String) : List Raw → List Event × ProgOutcome
  | [] => ([], ProgOutcome.stillLooping)
  | Raw.malformed _ :: _ => ([Event.fetch], ProgOutcome.fatalParse)
  | Raw.parsed doc :: rest =>
      match hasLastApplied doc with
      | Except.error e => ([Event.fetch], ProgOutcome.fatalStructural e)
      | Except.ok false =>
          (Event.fetch :: Event.applyRaw (Raw.parsed doc) ::
             (runProgram ns nm rest).1,
           (runProgram ns nm rest).2)
      | Except.ok true =>
          match merge_override ns nm doc with
          | Except.error e => ([Event.fetch], ProgOutcome.fatalStructural e)
          | Except.ok (doc', modified) =>
              (Event.fetch ::
                 (if modified then [Event.applyDoc doc'] else []),
               ProgOutcome.done doc' modified)

/-! ### Association-list (Python dict) lemmas -/

theorem dGet?_dSet_self (d : List (String × Json)) (k : String) (v : Json) :
    dGet? (dSet d k v) k = some v := by
  induction d with
  | nil => simp [dSet, dGet?]
  | cons p rest ih =>
      obtain ⟨k', v'⟩ := p
      by_cases h : k' = k
      · simp [dSet, dGet?, h]
      · simp [dSet, dGet?, h, ih]

theorem dGet?_dSet_ne (d : List (String × Json)) (k k' : String) (v : Json)
    (h : k' ≠ k) : dGet? (dSet d k v) k' = dGet? d k' := by
  induction d with
  | nil => simp [dSet, dGet?, Ne.symm h]
  | cons p rest ih =>
      obtain ⟨k0, v0⟩ := p
      by_cases hk : k0 = k
      · subst hk
        simp [dSet, dGet?, Ne.symm h]
      · simp [dSet, dGet?, hk, ih]

theorem dGet_dSet_ne (d : List (String × Json)) (k k' : String) (v : Json)
    (h : k' ≠ k) : dGet (dSet d k v) k' = dGet d k' := by
  simp [dGet, dGet?_dSet_ne d k k' v h]

theorem dSet_dSet (d : List (String × Json)) (k : String) (v w : Json) :
    dSet (dSet d k v) k w = dSet d k w := by
  induction d with
  | nil => simp [dSet]
  | cons p rest ih =>
      obtain ⟨k0, v0⟩ := p
      by_cases hk : k0 = k
      · simp [dSet, hk]
      · simp [dSet, hk, ih]

theorem dSet_of_dGet?_eq (d : List (String × Json)) (k : String) (v : Json)
    (h : dGet? d k = some v) : dSet d k v = d := by
  induction d with
  | nil => simp [dGet?] at h
  | cons p rest ih =>
      obtain ⟨k0, v0⟩ := p
      by_cases hk : k0 = k
      · subst hk
        simp [dGet?] at h
        simp [dSet, h]
      · simp [dGet?, hk] at h
        simp [dSet, hk, ih h]

theorem dGet?_append_of_absent (d tail : List (String × Json)) (k : String)
    (h : dGet? d k = none) : dGet? (d ++ tail) k = dGet? tail k := by
  induction d with
  | nil => simp
  | cons p rest ih =>
      obtain ⟨k0, v0⟩ := p
      by_cases hk : k0 = k
      · simp [dGet?, hk] at h
      · simp [dGet?, hk] at h ⊢
        exact ih h

theorem dGet?_append_ne (d : List (String × Json)) (k0 k : String) (v : Json)
    (h : k ≠ k0) : dGet? (d ++ [(k0, v)]) k = dGet? d k := by
  induction d with
  | nil => simp [dGet?, Ne.symm h]
  | cons p rest ih =>
      obtain ⟨k1, v1⟩ := p
      by_cases hk : k1 = k
      · simp [dGet?, hk]
      · simp [dGet?, hk, ih]

theorem dSet_append_of_absent (d : List (String × Json)) (k : String) (v w : Json)
    (h : dGet? d k = none) : dSet (d ++ [(k, v)]) k w = d ++ [(k, w)] := by
  induction d with
  | nil => simp [dSet]
  | cons p rest ih =>
      obtain ⟨k0, v0⟩ := p
      by_cases hk : k0 = k
      · simp [dGet?, hk] at h
      · simp [dGet?, hk] at h
        simp [dSet, hk, ih h]

/-! ### Navigation lemmas -/

theorem navigate_rebuild (f sf : List (String × Json)) (ovs : List Json) :
    navigate (rebuild f sf ovs) =
      Except.ok (dSet f "spec" (Json.obj (dSet sf "overrides" (Json.arr ovs))),
                 dSet sf "overrides" (Json.arr ovs), ovs) := by
  simp [navigate, rebuild, dSetdefault, dGet?_dSet_self]

theorem merge_override_eq (ns nm : String) (doc : Json)
    (f sf : List (String × Json)) (ovs ovs' : List Json) (md : Bool)
    (hnav : navigate doc = Except.ok (f, sf, ovs))
    (hloop : mergeLoop ns nm ovs = Except.ok (ovs', md)) :
    merge_override ns nm doc = Except.ok (rebuild f sf ovs', md) := by
  simp [merge_override, hnav, hloop]

theorem getOverrides_rebuild (f sf : List (String × Json)) (ovs : List Json) :
    getOverrides (rebuild f sf ovs) = some ovs := by
  simp [getOverrides, navigate_rebuild]

theorem getOverrides_eq_some (doc : Json) (ovs : List Json)
    (h : getOverrides doc = some ovs) :
    ∃ f sf, navigate doc = Except.ok (f, sf, ovs) := by
  unfold getOverrides at h
  match hn : navigate doc with
  | Except.error e => rw [hn] at h; simp at h
  | Except.ok (f, sf, ovs0) =>
      rw [hn] at h
      simp at h
      exact ⟨f, sf, by rw [h]⟩

theorem navigate_of_nonempty (doc : Json) (f sf : List (String × Json))
    (ovs : List Json) (h : navigate doc = Except.ok (f, sf, ovs))
    (hne : ovs ≠ []) : rebuild f sf ovs = doc := by
  cases doc with
  | obj fields =>
      unfold navigate at h
      cases h1 : dGet? fields "spec" with
      | none =>
          simp [dSetdefault, h1, dGet?] at h
          exact absurd h.2.2 hne
      | some v =>
          cases v with
          | obj sfs =>
              cases h2 : dGet? sfs "overrides" with
              | none =>
                  simp [dSetdefault, h1, h2] at h
                  exact absurd h.2.2 hne
              | some w =>
                  cases w with
                  | arr ovs0 =>
                      simp [dSetdefault, h1, h2] at h
                      obtain ⟨rfl, rfl, rfl⟩ := h
                      simp [rebuild, dSet_of_dGet?_eq _ _ _ h2,
                            dSet_of_dGet?_eq _ _ _ h1]
                  | null => simp [dSetdefault, h1, h2] at h
                  | bool b => simp [dSetdefault, h1, h2] at h
                  | num n => simp [dSetdefault, h1, h2] at h
                  | str s => simp [dSetdefault, h1, h2] at h
                  | obj fs2 => simp [dSetdefault, h1, h2] at h
          | null => simp [dSetdefault, h1] at h
          | bool b => simp [dSetdefault, h1] at h
          | num n => simp [dSetdefault, h1] at h
          | str s => simp [dSetdefault, h1] at h
          | arr es => simp [dSetdefault, h1] at h
  | null => simp [navigate] at h
  | bool b => simp [navigate] at h
  | num n => simp [navigate] at h
  | str s => simp [navigate] at h
  | arr es => simp [navigate] at h

/-! ### Merge-loop lemmas -/

theorem isMatch_newEntry (ns nm : String) : isMatch ns nm (newEntry ns nm) = true := by
  simp [isMatch, newEntry, dGet, dGet?, pyEqStr]

theorem unmanagedTruthy_newEntry (ns nm : String) :
    unmanagedTruthy (newEntry ns nm) = true := by
  simp [unmanagedTruthy, newEntry, dGet, dGet?, Json.truthy]

theorem unmanagedIsTrue_newEntry (ns nm : String) :
    unmanagedIsTrue (newEntry ns nm) = true := by
  simp [unmanagedIsTrue, newEntry, dGet, dGet?]

theorem isMatch_setUnmanagedTrue (ns nm : String) (o : Json) :
    isMatch ns nm (setUnmanagedTrue o) = isMatch ns nm o := by
  cases o with
  | obj fs =>
      simp [isMatch, setUnmanagedTrue,
            dGet_dSet_ne fs "unmanaged" "name" (Json.bool true) (by simp),
            dGet_dSet_ne fs "unmanaged" "namespace" (Json.bool true) (by simp)]
  | null => rfl
  | bool b => rfl
  | num n => rfl
  | str s => rfl
  | arr es => rfl

theorem unmanagedIsTrue_setUnmanagedTrue (o : Json) (ho : o.isObj = true) :
    unmanagedIsTrue (setUnmanagedTrue o) = true := by
  cases o with
  | obj fs => simp [unmanagedIsTrue, setUnmanagedTrue, dGet, dGet?_dSet_self]
  | null => simp [Json.isObj] at ho
  | bool b => simp [Json.isObj] at ho
  | num n => simp [Json.isObj] at ho
  | str s => simp [Json.isObj] at ho
  | arr es => simp [Json.isObj] at ho

theorem mergeLoop_noMatch (ns nm : String) (ovs : List Json)
    (hobj : ∀ o ∈ ovs, o.isObj = true)
    (hnm : ∀ o ∈ ovs, isMatch ns nm o = false) :
    mergeLoop ns nm ovs = Except.ok (ovs ++ [newEntry ns nm], true) := by
  induction ovs with
  | nil => simp [mergeLoop]
  | cons o rest ih =>
      have hobj' : ∀ x ∈ rest, x.isObj = true :=
        fun x hx => hobj x (List.mem_cons_of_mem _ hx)
      have hnm' : ∀ x ∈ rest, isMatch ns nm x = false :=
        fun x hx => hnm x (List.mem_cons_of_mem _ hx)
      have ho := hobj o (List.mem_cons_self o rest)
      have hm := hnm o (List.mem_cons_self o rest)
      cases o with
      | obj fs =>
          simp only [isMatch] at hm
          simp [mergeLoop, hm, ih hobj' hnm']
      | null => simp [Json.isObj] at ho
      | bool b => simp [Json.isObj] at ho
      | num n => simp [Json.isObj] at ho
      | str s => simp [Json.isObj] at ho
      | arr es => simp [Json.isObj] at ho

theorem mergeLoop_firstMatch (ns nm : String) (pre post : List Json) (o : Json)
    (hpre : ∀ p ∈ pre, p.isObj = true ∧ isMatch ns nm p = false)
    (ho : isMatch ns nm o = true) :
    mergeLoop ns nm (pre ++ o :: post) =
      Except.ok (pre ++ (if unmanagedTruthy o then o else setUnmanagedTrue o) :: post,
                 !unmanagedTruthy o) := by
  induction pre with
  | nil =>
      cases o with
      | obj fs =>
          simp only [isMatch] at ho
          by_cases ht : (dGet fs "unmanaged").truthy = true
          · simp [mergeLoop, ho, ht, unmanagedTruthy, setUnmanagedTrue]
          · rw [Bool.not_eq_true] at ht
            simp [mergeLoop, ho, ht, unmanagedTruthy, setUnmanagedTrue]
      | null => simp [isMatch] at ho
      | bool b => simp [isMatch] at ho
      | num n => simp [isMatch] at ho
      | str s => simp [isMatch] at ho
      | arr es => simp [isMatch] at ho
  | cons p pre' ih =>
      have hp := hpre p (List.mem_cons_self p pre')
      have hpre' : ∀ x ∈ pre', x.isObj = true ∧ isMatch ns nm x = false :=
        fun x hx => hpre x (List.mem_cons_of_mem _ hx)
      cases p with
      | obj fs =>
          have hm := hp.2
          simp only [isMatch] at hm
          simp [mergeLoop, hm, ih hpre']
      | null => simp [Json.isObj] at hp
      | bool b => simp [Json.isObj] at hp
      | num n => simp [Json.isObj] at hp
      | str s => simp [Json.isObj] at hp
      | arr es => simp [Json.isObj] at hp

theorem mergeLoop_idem (ns nm : String) (ovs ovs' : List Json) (md : Bool)
    (h : mergeLoop ns nm ovs = Except.ok (ovs', md)) :
    mergeLoop ns nm ovs' = Except.ok (ovs', false) := by
  induction ovs generalizing ovs' md with
  | nil =>
      simp [mergeLoop] at h
      obtain ⟨rfl, rfl⟩ := h
      simp [mergeLoop, newEntry, dGet, dGet?, pyEqStr, Json.truthy]
  | cons o rest ih =>
      cases o with
      | obj fs =>
          by_cases hm :
              (pyEqStr (dGet fs "name") nm && pyEqStr (dGet fs "namespace") ns) = true
          · by_cases ht : (dGet fs "unmanaged").truthy = true
            · simp [mergeLoop, hm, ht] at h
              obtain ⟨rfl, rfl⟩ := h
              simp [mergeLoop, hm, ht]
            · rw [Bool.not_eq_true] at ht
              simp [mergeLoop, hm, ht] at h
              obtain ⟨rfl, rfl⟩ := h
              have hname :
                  dGet (dSet fs "unmanaged" (Json.bool true)) "name" = dGet fs "name" :=
                dGet_dSet_ne fs "unmanaged" "name" (Json.bool true) (by simp)
              have hns :
                  dGet (dSet fs "unmanaged" (Json.bool true)) "namespace" =
                    dGet fs "namespace" :=
                dGet_dSet_ne fs "unmanaged" "namespace" (Json.bool true) (by simp)
              have hcond :
                  (pyEqStr (dGet (dSet fs "unmanaged" (Json.bool true)) "name") nm &&
                    pyEqStr (dGet (dSet fs "unmanaged" (Json.bool true)) "namespace") ns) =
                    true := by
                rw [hname, hns]; exact hm
              have htr :
                  (dGet (dSet fs "unmanaged" (Json.bool true)) "unmanaged").truthy = true := by
                simp [dGet, dGet?_dSet_self, Json.truthy]
              simp [mergeLoop, hcond, htr]
          · rw [Bool.not_eq_true] at hm
            cases hr : mergeLoop ns nm rest with
            | error e => simp [mergeLoop, hm, hr] at h
            | ok pr =>
                obtain ⟨rest', md'⟩ := pr
                simp [mergeLoop, hm, hr] at h
                obtain ⟨rfl, rfl⟩ := h
                simp [mergeLoop, hm, ih rest' md' hr]
      | null => simp [mergeLoop] at h
      | bool b => simp [mergeLoop] at h
      | num n => simp [mergeLoop] at h
      | str s => simp [mergeLoop] at h
      | arr es => simp [mergeLoop] at h

theorem mergeLoop_shape (ns nm : String) (ovs ovs' : List Json) (md : Bool)
    (h : mergeLoop ns nm ovs = Except.ok (ovs', md)) :
    ovs' = ovs ∨ ovs' = ovs ++ [newEntry ns nm] ∨
      ∃ p o q, ovs = p ++ o :: q ∧ isMatch ns nm o = true ∧
        ovs' = p ++ setUnmanagedTrue o :: q := by
  induction ovs generalizing ovs' md with
  | nil =>
      simp [mergeLoop] at h
      exact Or.inr (Or.inl (by simp [h.1]))
  | cons o rest ih =>
      cases o with
      | obj fs =>
          by_cases hm :
              (pyEqStr (dGet fs "name") nm && pyEqStr (dGet fs "namespace") ns) = true
          · by_cases ht : (dGet fs "unmanaged").truthy = true
            · simp [mergeLoop, hm, ht] at h
              exact Or.inl h.1.symm
            · rw [Bool.not_eq_true] at ht
              simp [mergeLoop, hm, ht] at h
              refine Or.inr (Or.inr ⟨[], Json.obj fs, rest, by simp, ?_, ?_⟩)
              · simp [isMatch, hm]
              · simp [setUnmanagedTrue, h.1.symm]
          · rw [Bool.not_eq_true] at hm
            cases hr : mergeLoop ns nm rest with
            | error e => simp [mergeLoop, hm, hr] at h
            | ok pr =>
                obtain ⟨rest', md'⟩ := pr
                simp [mergeLoop, hm, hr] at h
                obtain ⟨rfl, rfl⟩ := h
                rcases ih rest' md' hr with h1 | h2 | ⟨p, o, q, hq1, hq2, hq3⟩
                · exact Or.inl (by rw [h1])
                · exact Or.inr (Or.inl (by rw [h2]; simp))
                · exact Or.inr (Or.inr ⟨Json.obj fs :: p, o, q, by rw [hq1]; rfl,
                    hq2, by rw [hq3]; rfl⟩)
      | null => simp [mergeLoop] at h
      | bool b => simp [mergeLoop] at h
      | num n => simp [mergeLoop] at h
      | str s => simp [mergeLoop] at h
      | arr es => simp [mergeLoop] at h

theorem isObj_of_isMatch (ns nm : String) (o : Json) (h : isMatch ns nm o = true) :
    o.isObj = true := by
  cases o with
  | obj fs => rfl
  | null => simp [isMatch] at h
  | bool b => simp [isMatch] at h
  | num n => simp [isMatch] at h
  | str s => simp [isMatch] at h
  | arr es => simp [isMatch] at h

theorem exists_first_split {α : Type} (p : α → Bool) (l : List α)
    (h : ∃ x ∈ l, p x = true) :
    ∃ l1 x l2, l = l1 ++ x :: l2 ∧ (∀ y ∈ l1, p y = false) ∧ p x = true := by
  induction l with
  | nil => simp at h
  | cons a l ih =>
      by_cases ha : p a = true
      · exact ⟨[], a, l, by simp, by simp, ha⟩
      · rw [Bool.not_eq_true] at ha
        obtain ⟨x, hx, hpx⟩ := h
        rcases List.mem_cons.mp hx with rfl | hxl
        · rw [ha] at hpx; cases hpx
        · obtain ⟨l1, x', l2, hl, h1, h2⟩ := ih ⟨x, hxl, hpx⟩
          refine ⟨a :: l1, x', l2, by rw [hl]; rfl, ?_, h2⟩
          intro y hy
          rcases List.mem_cons.mp hy with rfl | hy'
          · exact ha
          · exact h1 y hy'

/-- While the fetched documents lack the last-applied annotation, each
bootstrap iteration contributes exactly a fetch followed by an apply of the
raw fetched bytes, and the program continues on the remaining stream. -/
theorem runProgram_skip_unannotated (ns nm : String) (pre rest : List Raw)
    (hpre : ∀ p ∈ pre, ∃ j, p = Raw.parsed j ∧ hasLastApplied j = Except.ok false) :
    runProgram ns nm (pre ++ rest) =
      ((pre.flatMap fun p => [Event.fetch, Event.applyRaw p]) ++
         (runProgram ns nm rest).1,
       (runProgram ns nm rest).2) := by
  induction pre with
  | nil => simp
  | cons p pre' ih =>
      obtain ⟨j, rfl, hj⟩ := hpre p (List.mem_cons_self p pre')
      have ih' := ih (fun q hq => hpre q (List.mem_cons_of_mem _ hq))
      simp [runProgram, hj, ih']

/-! ### Claims -/

/-- Claim C1: for every document whose overrides list (entries being
objects, as the data model requires) contains no entry with both `name` and
`namespace` equal to the inputs, `merge_override` appends exactly one new
entry `{group: "apps/v1", kind: "Deployment", name, namespace,
unmanaged: true}` at the end, so the overrides list length increases by
exactly one, and the modification flag is set. -/
theorem claim_C1 (ns nm : String) (doc : Json) (ovs : List Json)
    (hnav : getOverrides doc = some ovs)
    (hobj : ∀ o ∈ ovs, o.isObj = true)
    (hnm : ∀ o ∈ ovs, isMatch ns nm o = false) :
    ∃ doc', merge_override ns nm doc = Except.ok (doc', true) ∧
      getOverrides doc' = some (ovs ++ [newEntry ns nm]) ∧
      (ovs ++ [newEntry ns nm]).length = ovs.length + 1 := by
  obtain ⟨f, sf, hn⟩ := getOverrides_eq_some doc ovs hnav
  exact ⟨rebuild f sf (ovs ++ [newEntry ns nm]),
    merge_override_eq ns nm doc f sf ovs _ _ hn (mergeLoop_noMatch ns nm ovs hobj hnm),
    getOverrides_rebuild f sf _, by simp⟩

/-- Witness for C1 at the spec's end-to-end example: empty overrides list,
namespace `openshift-monitoring`, name `prometheus-operator`. -/
theorem witness_C1 :
    ∃ doc', merge_override "openshift-monitoring" "prometheus-operator"
        (Json.obj []) = Except.ok (doc', true) ∧
      getOverrides doc' =
        some (([] : List Json) ++
          [newEntry "openshift-monitoring" "prometheus-operator"]) ∧
      (([] : List Json) ++
        [newEntry "openshift-monitoring" "prometheus-operator"]).length =
        ([] : List Json).length + 1 :=
  claim_C1 "openshift-monitoring" "prometheus-operator" (Json.obj []) []
    rfl (by simp) (by simp)

/-- Counterexample to C2 as stated: a document whose overrides list holds
two entries for the pair ("x", "y") — the first already unmanaged, the
second with `unmanaged: false`.  The list does contain a matching entry
whose `unmanaged` is falsy, yet the loop stops at the first match, so
nothing is flipped and no modification is reported. -/
theorem claim_C2_counterexample :
    isMatch "x" "y" (Json.obj [("name", Json.str "y"), ("namespace", Json.str "x"),
        ("unmanaged", Json.bool false)]) = true ∧
    unmanagedTruthy (Json.obj [("name", Json.str "y"), ("namespace", Json.str "x"),
        ("unmanaged", Json.bool false)]) = false ∧
    merge_override "x" "y"
        (Json.obj [("spec", Json.obj [("overrides", Json.arr
          [Json.obj [("name", Json.str "y"), ("namespace", Json.str "x"),
             ("unmanaged", Json.bool true)],
           Json.obj [("name", Json.str "y"), ("namespace", Json.str "x"),
             ("unmanaged", Json.bool false)]])])]) =
      Except.ok
        (Json.obj [("spec", Json.obj [("overrides", Json.arr
          [Json.obj [("name", Json.str "y"), ("namespace", Json.str "x"),
             ("unmanaged", Json.bool true)],
           Json.obj [("name", Json.str "y"), ("namespace", Json.str "x"),
             ("unmanaged", Json.bool false)]])])], false) :=
  ⟨rfl, rfl, rfl⟩

/-- Claim C2 (amended): for every document whose overrides list contains a
matching entry, where the FIRST entry in list order matching
(namespace, name) has a falsy or absent `unmanaged` field (entries before
it being objects), `merge_override` sets that first entry's `unmanaged`
field to true, sets the modification flag, appends no new entry, and leaves
the overrides list length unchanged.  (As stated the claim is false when a
falsy matching entry sits behind an already-unmanaged matching one; see
`claim_C2_counterexample`.) -/
theorem claim_C2 (ns nm : String) (doc : Json) (pre post : List Json) (o : Json)
    (hnav : getOverrides doc = some (pre ++ o :: post))
    (hpre : ∀ p ∈ pre, p.isObj = true ∧ isMatch ns nm p = false)
    (ho : isMatch ns nm o = true)
    (hfalsy : unmanagedTruthy o = false) :
    ∃ doc', merge_override ns nm doc = Except.ok (doc', true) ∧
      getOverrides doc' = some (pre ++ setUnmanagedTrue o :: post) ∧
      unmanagedIsTrue (setUnmanagedTrue o) = true ∧
      (pre ++ setUnmanagedTrue o :: post).length = (pre ++ o :: post).length := by
  obtain ⟨f, sf, hn⟩ := getOverrides_eq_some doc _ hnav
  have hloop := mergeLoop_firstMatch ns nm pre post o hpre ho
  rw [hfalsy] at hloop
  simp only [Bool.not_false, if_false] at hloop
  exact ⟨rebuild f sf (pre ++ setUnmanagedTrue o :: post),
    merge_override_eq ns nm doc f sf _ _ _ hn hloop,
    getOverrides_rebuild f sf _,
    unmanagedIsTrue_setUnmanagedTrue o (isObj_of_isMatch ns nm o ho),
    by simp⟩

/-- Witness for C2 at a document with a single matching entry whose
`unmanaged` is `false`. -/
theorem witness_C2 :
    ∃ doc', merge_override "x" "y"
        (Json.obj [("spec", Json.obj [("overrides", Json.arr
          [Json.obj [("name", Json.str "y"), ("namespace", Json.str "x"),
             ("unmanaged", Json.bool false)]])])]) = Except.ok (doc', true) ∧
      getOverrides doc' =
        some (([] : List Json) ++
          setUnmanagedTrue (Json.obj [("name", Json.str "y"),
            ("namespace", Json.str "x"), ("unmanaged", Json.bool false)]) :: []) ∧
      unmanagedIsTrue (setUnmanagedTrue (Json.obj [("name", Json.str "y"),
        ("namespace", Json.str "x"), ("unmanaged", Json.bool false)])) = true ∧
      (([] : List Json) ++
        setUnmanagedTrue (Json.obj [("name", Json.str "y"),
          ("namespace", Json.str "x"), ("unmanaged", Json.bool false)]) :: []).length =
        (([] : List Json) ++ Json.obj [("name", Json.str "y"),
          ("namespace", Json.str "x"), ("unmanaged", Json.bool false)] :: []).length :=
  claim_C2 "x" "y" _ [] []
    (Json.obj [("name", Json.str "y"), ("namespace", Json.str "x"),
      ("unmanaged", Json.bool false)])
    rfl (by simp) rfl rfl

/-- Claim C9: when the overrides list contains several entries matching
(namespace, name), only the first such entry in list order is examined and
possibly mutated: the scan stops at the first match, every later entry —
matching or not — is left exactly as it was, and no new entry is appended
(the list length is unchanged). -/
theorem claim_C9 (ns nm : String) (doc : Json) (pre post : List Json) (o : Json)
    (hnav : getOverrides doc = some (pre ++ o :: post))
    (hpre : ∀ p ∈ pre, p.isObj = true ∧ isMatch ns nm p = false)
    (ho : isMatch ns nm o = true) :
    ∃ doc', merge_override ns nm doc = Except.ok (doc', !unmanagedTruthy o) ∧
      getOverrides doc' =
        some (pre ++ (if unmanagedTruthy o then o else setUnmanagedTrue o) :: post) ∧
      (pre ++ (if unmanagedTruthy o then o else setUnmanagedTrue o) :: post).length =
        (pre ++ o :: post).length := by
  obtain ⟨f, sf, hn⟩ := getOverrides_eq_some doc _ hnav
  exact ⟨rebuild f sf _,
    merge_override_eq ns nm doc f sf _ _ _ hn
      (mergeLoop_firstMatch ns nm pre post o hpre ho),
    getOverrides_rebuild f sf _, by simp⟩

/-- Witness for C9 at a document whose overrides list holds two matching
entries, the first one falsy: the first is flipped, the second (already
unmanaged) is returned verbatim in place. -/
theorem witness_C9 :
    ∃ doc', merge_override "x" "y"
        (Json.obj [("spec", Json.obj [("overrides", Json.arr
          [Json.obj [("name", Json.str "y"), ("namespace", Json.str "x"),
             ("unmanaged", Json.bool false)],
           Json.obj [("name", Json.str "y"), ("namespace", Json.str "x"),
             ("unmanaged", Json.bool true)]])])]) =
        Except.ok (doc',
          !unmanagedTruthy (Json.obj [("name", Json.str "y"),
            ("namespace", Json.str "x"), ("unmanaged", Json.bool false)])) ∧
      getOverrides doc' =
        some (([] : List Json) ++
          (if unmanagedTruthy (Json.obj [("name", Json.str "y"),
              ("namespace", Json.str "x"), ("unmanaged", Json.bool false)])
           then Json.obj [("name", Json.str "y"), ("namespace", Json.str "x"),
             ("unmanaged", Json.bool false)]
           else setUnmanagedTrue (Json.obj [("name", Json.str "y"),
             ("namespace", Json.str "x"), ("unmanaged", Json.bool false)])) ::
          [Json.obj [("name", Json.str "y"), ("namespace", Json.str "x"),
             ("unmanaged", Json.bool true)]]) ∧
      (([] : List Json) ++
        (if unmanagedTruthy (Json.obj [("name", Json.str "y"),
            ("namespace", Json.str "x"), ("unmanaged", Json.bool false)])
         then Json.obj [("name", Json.str "y"), ("namespace", Json.str "x"),
           ("unmanaged", Json.bool false)]
         else setUnmanagedTrue (Json.obj [("name", Json.str "y"),
           ("namespace", Json.str "x"), ("unmanaged", Json.bool false)])) ::
        [Json.obj [("name", Json.str "y"), ("namespace", Json.str "x"),
           ("unmanaged", Json.bool true)]]).length =
      (([] : List Json) ++ Json.obj [("name", Json.str "y"),
          ("namespace", Json.str "x"), ("unmanaged", Json.bool false)] ::
        [Json.obj [("name", Json.str "y"), ("namespace", Json.str "x"),
           ("unmanaged", Json.bool true)]]).length :=
  claim_C9 "x" "y" _ [] [Json.obj [("name", Json.str "y"),
      ("namespace", Json.str "x"), ("unmanaged", Json.bool true)]]
    (Json.obj [("name", Json.str "y"), ("namespace", Json.str "x"),
      ("unmanaged", Json.bool false)])
    rfl (by simp) rfl

/-- Counterexample to C3 as stated: a document whose overrides list already
holds two identical entries for the pair ("x", "y"), both `unmanaged: true`.
The run succeeds without modification, and the resulting list still holds
two matching entries with `unmanaged == true`, not exactly one (the script
does not deduplicate pre-existing duplicates). -/
theorem claim_C3_counterexample :
    merge_override "x" "y"
        (Json.obj [("spec", Json.obj [("overrides", Json.arr
          [Json.obj [("name", Json.str "y"), ("namespace", Json.str "x"),
             ("unmanaged", Json.bool true)],
           Json.obj [("name", Json.str "y"), ("namespace", Json.str "x"),
             ("unmanaged", Json.bool true)]])])]) =
      Except.ok
        (Json.obj [("spec", Json.obj [("overrides", Json.arr
          [Json.obj [("name", Json.str "y"), ("namespace", Json.str "x"),
             ("unmanaged", Json.bool true)],
           Json.obj [("name", Json.str "y"), ("namespace", Json.str "x"),
             ("unmanaged", Json.bool true)]])])], false) ∧
    ((getOverrides (Json.obj [("spec", Json.obj [("overrides", Json.arr
          [Json.obj [("name", Json.str "y"), ("namespace", Json.str "x"),
             ("unmanaged", Json.bool true)],
           Json.obj [("name", Json.str "y"), ("namespace", Json.str "x"),
             ("unmanaged", Json.bool true)]])])])).getD []).countP
        (fun o => isMatch "x" "y" o && unmanagedIsTrue o) = 2 :=
  ⟨rfl, rfl⟩

/-- Claim C3 (amended): for every data-model-conforming document (override
entries are objects whose `unmanaged` field, when present, is boolean) and
every (namespace, name) pair, after a successful run there exists AT LEAST
one override entry with that namespace and name whose `unmanaged` field is
true — exactly one whenever the input document held at most one matching
entry.  (Exactly one fails for pre-existing duplicates; see
`claim_C3_counterexample`.) -/
theorem claim_C3 (ns nm : String) (doc : Json) (ovs : List Json)
    (hnav : getOverrides doc = some ovs)
    (hobj : ∀ o ∈ ovs, o.isObj = true)
    (hbool : ∀ o ∈ ovs, isMatch ns nm o = true → unmanagedTruthy o = unmanagedIsTrue o) :
    ∃ doc' md ovs', merge_override ns nm doc = Except.ok (doc', md) ∧
      getOverrides doc' = some ovs' ∧
      1 ≤ ovs'.countP (fun o => isMatch ns nm o && unmanagedIsTrue o) ∧
      (ovs.countP (fun o => isMatch ns nm o) ≤ 1 →
        ovs'.countP (fun o => isMatch ns nm o && unmanagedIsTrue o) = 1) := by
  obtain ⟨f, sf, hn⟩ := getOverrides_eq_some doc ovs hnav
  by_cases hex : ∃ o ∈ ovs, isMatch ns nm o = true
  · obtain ⟨pre, o, post, rfl, hpre0, ho⟩ := exists_first_split _ ovs hex
    have hpre : ∀ p ∈ pre, p.isObj = true ∧ isMatch ns nm p = false :=
      fun p hp => ⟨hobj p (List.mem_append_left _ hp), hpre0 p hp⟩
    have hloop := mergeLoop_firstMatch ns nm pre post o hpre ho
    refine ⟨_, _, _, merge_override_eq ns nm doc f sf _ _ _ hn hloop,
      getOverrides_rebuild f sf _, ?_, ?_⟩
    all_goals
      have hcnt0 : pre.countP (fun x => isMatch ns nm x && unmanagedIsTrue x) = 0 :=
        List.countP_eq_zero.mpr (fun x hx => by simp [hpre0 x hx])
    all_goals
      have hone :
          (isMatch ns nm (if unmanagedTruthy o then o else setUnmanagedTrue o) &&
            unmanagedIsTrue (if unmanagedTruthy o then o else setUnmanagedTrue o)) =
            true := by
        by_cases ht : unmanagedTruthy o = true
        · have : unmanagedIsTrue o = true := by
            rw [← hbool o (List.mem_append_right _ (List.mem_cons_self o post)) ho]
            exact ht
          simp [ht, ho, this]
        · rw [Bool.not_eq_true] at ht
          simp [ht, isMatch_setUnmanagedTrue, ho,
            unmanagedIsTrue_setUnmanagedTrue o (isObj_of_isMatch ns nm o ho)]
    · rw [List.countP_append, List.countP_cons, hcnt0, hone]
      simp
    · intro hle
      rw [List.countP_append, List.countP_cons] at hle
      have hpre1 : pre.countP (fun x => isMatch ns nm x) = 0 :=
        List.countP_eq_zero.mpr (fun x hx => by simp [hpre0 x hx])
      rw [hpre1, ho] at hle
      simp at hle
      have hpostc : post.countP (fun x => isMatch ns nm x && unmanagedIsTrue x) = 0 :=
        List.countP_eq_zero.mpr (fun x hx => by simp [hle x hx])
      rw [List.countP_append, List.countP_cons, hcnt0, hone, hpostc]
      rfl
  · push_neg at hex
    have hnm : ∀ o ∈ ovs, isMatch ns nm o = false := by
      intro o ho
      have := hex o ho
      simpa using this
    have hloop := mergeLoop_noMatch ns nm ovs hobj hnm
    refine ⟨_, _, _, merge_override_eq ns nm doc f sf _ _ _ hn hloop,
      getOverrides_rebuild f sf _, ?_, fun _ => ?_⟩
    all_goals
      have hcnt0 : ovs.countP (fun x => isMatch ns nm x && unmanagedIsTrue x) = 0 :=
        List.countP_eq_zero.mpr (fun x hx => by simp [hnm x hx])
    all_goals
      rw [List.countP_append, hcnt0]
      simp [List.countP_cons, isMatch_newEntry, unmanagedIsTrue_newEntry]

/-- Witness for C3 at a document with no `spec` at all: the appended entry
is the unique matching one. -/
theorem witness_C3 :
    ∃ doc' md ovs', merge_override "x" "y" (Json.obj []) = Except.ok (doc', md) ∧
      getOverrides doc' = some ovs' ∧
      1 ≤ ovs'.countP (fun o => isMatch "x" "y" o && unmanagedIsTrue o) ∧
      (([] : List Json).countP (fun o => isMatch "x" "y" o) ≤ 1 →
        ovs'.countP (fun o => isMatch "x" "y" o && unmanagedIsTrue o) = 1) :=
  claim_C3 "x" "y" (Json.obj []) [] rfl (by simp) (by simp)

/-- Counterexample to C4 as stated: the overrides list holds a falsy
matching entry FOLLOWED by a matching entry with `unmanaged: true`.  The
list does contain a matching entry with `unmanaged` equal to true, yet the
loop stops at the first (falsy) match, flips it, reports a modification,
and the final apply IS invoked. -/
theorem claim_C4_counterexample :
    isMatch "x" "y" (Json.obj [("name", Json.str "y"), ("namespace", Json.str "x"),
        ("unmanaged", Json.bool true)]) = true ∧
    unmanagedIsTrue (Json.obj [("name", Json.str "y"), ("namespace", Json.str "x"),
        ("unmanaged", Json.bool true)]) = true ∧
    runProgram "x" "y"
        [Raw.parsed (Json.obj
          [("metadata", Json.obj [("annotations",
              Json.obj [(lastAppliedKey, Json.str "{}")])]),
           ("spec", Json.obj [("overrides", Json.arr
             [Json.obj [("name", Json.str "y"), ("namespace", Json.str "x"),
                ("unmanaged", Json.bool false)],
              Json.obj [("name", Json.str "y"), ("namespace", Json.str "x"),
                ("unmanaged", Json.bool true)]])])])] =
      ([Event.fetch, Event.applyDoc (Json.obj
          [("metadata", Json.obj [("annotations",
              Json.obj [(lastAppliedKey, Json.str "{}")])]),
           ("spec", Json.obj [("overrides", Json.arr
             [Json.obj [("name", Json.str "y"), ("namespace", Json.str "x"),
                ("unmanaged", Json.bool true)],
              Json.obj [("name", Json.str "y"), ("namespace", Json.str "x"),
                ("unmanaged", Json.bool true)]])])])],
       ProgOutcome.done (Json.obj
          [("metadata", Json.obj [("annotations",
              Json.obj [(lastAppliedKey, Json.str "{}")])]),
           ("spec", Json.obj [("overrides", Json.arr
             [Json.obj [("name", Json.str "y"), ("namespace", Json.str "x"),
                ("unmanaged", Json.bool true)],
              Json.obj [("name", Json.str "y"), ("namespace", Json.str "x"),
                ("unmanaged", Json.bool true)]])])]) true) :=
  ⟨rfl, rfl, rfl⟩

/-- Claim C4 (amended): if the FIRST entry matching (namespace, name) in
the overrides list has a truthy `unmanaged` field (entries before it being
objects), `merge_override` makes no modification — the document is returned
unchanged with the flag clear — and a run against an annotated fetch of
that document performs no apply at all: its only event is the fetch.
(As stated the claim is false when the entry with `unmanaged: true` sits
behind a falsy matching one; see `claim_C4_counterexample`.) -/
theorem claim_C4 (ns nm : String) (doc : Json) (pre post : List Json) (o : Json)
    (hanno : hasLastApplied doc = Except.ok true)
    (hnav : getOverrides doc = some (pre ++ o :: post))
    (hpre : ∀ p ∈ pre, p.isObj = true ∧ isMatch ns nm p = false)
    (ho : isMatch ns nm o = true)
    (htrue : unmanagedTruthy o = true) :
    merge_override ns nm doc = Except.ok (doc, false) ∧
    runProgram ns nm [Raw.parsed doc] = ([Event.fetch], ProgOutcome.done doc false) := by
  obtain ⟨f, sf, hn⟩ := getOverrides_eq_some doc _ hnav
  have hloop := mergeLoop_firstMatch ns nm pre post o hpre ho
  rw [htrue] at hloop
  simp only [Bool.not_true, if_true] at hloop
  have hmerge := merge_override_eq ns nm doc f sf _ _ _ hn hloop
  rw [navigate_of_nonempty doc f sf _ hn (by simp)] at hmerge
  refine ⟨hmerge, ?_⟩
  simp [runProgram, hanno, hmerge]

/-- Witness for C4 at a document with a single, already-unmanaged matching
entry and the last-applied annotation present. -/
theorem witness_C4 :
    merge_override "x" "y"
        (Json.obj [("metadata", Json.obj [("annotations",
            Json.obj [(lastAppliedKey, Json.str "{}")])]),
          ("spec", Json.obj [("overrides", Json.arr
            [Json.obj [("name", Json.str "y"), ("namespace", Json.str "x"),
               ("unmanaged", Json.bool true)]])])]) =
      Except.ok (Json.obj [("metadata", Json.obj [("annotations",
            Json.obj [(lastAppliedKey, Json.str "{}")])]),
          ("spec", Json.obj [("overrides", Json.arr
            [Json.obj [("name", Json.str "y"), ("namespace", Json.str "x"),
               ("unmanaged", Json.bool true)]])])], false) ∧
    runProgram "x" "y"
        [Raw.parsed (Json.obj [("metadata", Json.obj [("annotations",
            Json.obj [(lastAppliedKey, Json.str "{}")])]),
          ("spec", Json.obj [("overrides", Json.arr
            [Json.obj [("name", Json.str "y"), ("namespace", Json.str "x"),
               ("unmanaged", Json.bool true)]])])])] =
      ([Event.fetch], ProgOutcome.done
        (Json.obj [("metadata", Json.obj [("annotations",
            Json.obj [(lastAppliedKey, Json.str "{}")])]),
          ("spec", Json.obj [("overrides", Json.arr
            [Json.obj [("name", Json.str "y"), ("namespace", Json.str "x"),
               ("unmanaged", Json.bool true)]])])]) false) :=
  claim_C4 "x" "y" _ [] []
    (Json.obj [("name", Json.str "y"), ("namespace", Json.str "x"),
      ("unmanaged", Json.bool true)])
    rfl rfl (by simp) rfl rfl

/-- Claim C5: the merge is idempotent — if `merge_override` maps a document
to `doc'` (with any modification flag), a second application to `doc'`
returns `doc'` itself, unchanged, with the modification flag clear: no
duplicate entry is created and `unmanaged` stays true. -/
theorem claim_C5 (ns nm : String) (doc doc' : Json) (m : Bool)
    (h : merge_override ns nm doc = Except.ok (doc', m)) :
    merge_override ns nm doc' = Except.ok (doc', false) := by
  unfold merge_override at h
  cases hn : navigate doc with
  | error e => rw [hn] at h; simp at h
  | ok t =>
      obtain ⟨f, sf, ovs⟩ := t
      rw [hn] at h
      dsimp only at h
      cases hl : mergeLoop ns nm ovs with
      | error e => rw [hl] at h; simp at h
      | ok p =>
          obtain ⟨ovs', md⟩ := p
          rw [hl] at h
          simp at h
          obtain ⟨rfl, rfl⟩ := h
          have hmerge := merge_override_eq ns nm (rebuild f sf ovs') _ _ _ _ _
            (navigate_rebuild f sf ovs') (mergeLoop_idem ns nm ovs ovs' _ hl)
          rw [hmerge]
          simp [rebuild, dSet_dSet]

/-- Witness for C5: the first run on a spec-less document appends the
entry; the recorded second run changes nothing. -/
theorem witness_C5 :
    merge_override "x" "y"
        (Json.obj [("spec", Json.obj [("overrides", Json.arr [newEntry "x" "y"])])]) =
      Except.ok
        (Json.obj [("spec", Json.obj [("overrides", Json.arr [newEntry "x" "y"])])],
         false) :=
  claim_C5 "x" "y" (Json.obj []) _ true rfl

/-- Claim C6: the merge step is never reached while fetched documents lack
the last-applied-configuration annotation.  For any prefix of fetches whose
documents parse but lack the annotation, the run's trace is exactly, for
each such fetch, the fetch event followed by an apply of those same raw
bytes, unmodified — and the program then continues on the rest of the fetch
stream (where the merge can only happen on a fetch carrying the
annotation). -/
theorem claim_C6 (ns nm : String) (pre rest : List Raw)
    (hpre : ∀ p ∈ pre, ∃ j, p = Raw.parsed j ∧ hasLastApplied j = Except.ok false) :
    runProgram ns nm (pre ++ rest) =
      ((pre.flatMap fun p => [Event.fetch, Event.applyRaw p]) ++
         (runProgram ns nm rest).1,
       (runProgram ns nm rest).2) :=
  runProgram_skip_unannotated ns nm pre rest hpre

/-- Witness for C6: one unannotated fetch followed by an exhausted stream —
the trace is the fetch plus the raw re-apply, and the loop is still
waiting. -/
theorem witness_C6 :
    runProgram "x" "y" ([Raw.parsed (Json.obj [])] ++ []) =
      (([Raw.parsed (Json.obj [])].flatMap
          fun p => [Event.fetch, Event.applyRaw p]) ++
         (runProgram "x" "y" []).1,
       (runProgram "x" "y" []).2) :=
  claim_C6 "x" "y" [Raw.parsed (Json.obj [])] []
    (by
      intro p hp
      rw [List.mem_singleton] at hp
      subst hp
      exact ⟨Json.obj [], rfl, rfl⟩)

/-- Claim C7: `merge_override` never fails on a missing `spec` key or a
missing `spec.overrides` key: a missing `spec` is created (holding the
fresh overrides list), a missing `overrides` is created inside the existing
`spec` mapping, and in both cases the merge then proceeds normally on the
empty list, appending the new entry. -/
theorem claim_C7 (ns nm : String) (fields sfields : List (String × Json)) :
    (dGet? fields "spec" = none →
      merge_override ns nm (Json.obj fields) =
        Except.ok (Json.obj (fields ++
          [("spec", Json.obj [("overrides", Json.arr [newEntry ns nm])])]), true)) ∧
    (dGet? fields "spec" = some (Json.obj sfields) →
      dGet? sfields "overrides" = none →
      merge_override ns nm (Json.obj fields) =
        Except.ok (Json.obj (dSet fields "spec"
          (Json.obj (sfields ++ [("overrides", Json.arr [newEntry ns nm])]))), true)) := by
  constructor
  · intro h1
    have hnav : navigate (Json.obj fields) =
        Except.ok (fields ++ [("spec", Json.obj [])],
          [("overrides", Json.arr [])], []) := by
      simp [navigate, dSetdefault, h1, dGet?]
    have hmerge := merge_override_eq ns nm _ _ _ _ _ true hnav (show mergeLoop ns nm [] = Except.ok ([newEntry ns nm], true) from rfl)
    rw [hmerge]
    simp [rebuild, dSet, dSet_append_of_absent _ _ _ _ h1]
  · intro h1 h2
    have hnav : navigate (Json.obj fields) =
        Except.ok (fields, sfields ++ [("overrides", Json.arr [])], []) := by
      simp [navigate, dSetdefault, h1, h2]
    have hmerge := merge_override_eq ns nm _ _ _ _ _ true hnav (show mergeLoop ns nm [] = Except.ok ([newEntry ns nm], true) from rfl)
    rw [hmerge]
    simp [rebuild, dSet_append_of_absent _ _ _ _ h2]

/-- Witness for C7: a document with no `spec` at all, and a document whose
`spec` exists (with an unrelated key) but has no `overrides`. -/
theorem witness_C7 :
    merge_override "x" "y" (Json.obj []) =
      Except.ok (Json.obj (([] : List (String × Json)) ++
        [("spec", Json.obj [("overrides", Json.arr [newEntry "x" "y"])])]), true) ∧
    merge_override "x" "y" (Json.obj [("spec", Json.obj [("kept", Json.null)])]) =
      Except.ok (Json.obj (dSet [("spec", Json.obj [("kept", Json.null)])] "spec"
        (Json.obj ([("kept", Json.null)] ++
          [("overrides", Json.arr [newEntry "x" "y"])]))), true) :=
  ⟨(claim_C7 "x" "y" [] []).1 rfl,
   (claim_C7 "x" "y" [("spec", Json.obj [("kept", Json.null)])]
     [("kept", Json.null)]).2 rfl rfl⟩

/-- Claim C8: if a fetch's output fails to parse as JSON, the run ends
fatally right there — the parse error propagates unhandled (non-zero exit),
nothing is retried, no merge happens, and the final (full-document) apply
is never invoked: the trace holds only the bootstrap events of the
preceding unannotated fetches plus the failing fetch itself. -/
theorem claim_C8 (ns nm : String) (pre : List Raw) (bytes : String) (rest : List Raw)
    (hpre : ∀ p ∈ pre, ∃ j, p = Raw.parsed j ∧ hasLastApplied j = Except.ok false) :
    runProgram ns nm (pre ++ Raw.malformed bytes :: rest) =
      ((pre.flatMap fun p => [Event.fetch, Event.applyRaw p]) ++ [Event.fetch],
       ProgOutcome.fatalParse) ∧
    ∀ d, Event.applyDoc d ∉
      (runProgram ns nm (pre ++ Raw.malformed bytes :: rest)).1 := by
  have h := runProgram_skip_unannotated ns nm pre (Raw.malformed bytes :: rest) hpre
  have htail : runProgram ns nm (Raw.malformed bytes :: rest) =
      ([Event.fetch], ProgOutcome.fatalParse) := rfl
  rw [htail] at h
  refine ⟨h, ?_⟩
  intro d
  rw [h]
  simp [List.mem_flatMap]

/-- Witness for C8: one unannotated fetch, then malformed bytes. -/
theorem witness_C8 :
    runProgram "x" "y" ([Raw.parsed (Json.obj [])] ++ Raw.malformed "not json" :: []) =
      (([Raw.parsed (Json.obj [])].flatMap
          fun p => [Event.fetch, Event.applyRaw p]) ++ [Event.fetch],
       ProgOutcome.fatalParse) ∧
    ∀ d, Event.applyDoc d ∉
      (runProgram "x" "y" ([Raw.parsed (Json.obj [])] ++
        Raw.malformed "not json" :: [])).1 :=
  claim_C8 "x" "y" [Raw.parsed (Json.obj [])] "not json" []
    (by
      intro p hp
      rw [List.mem_singleton] at hp
      subst hp
      exact ⟨Json.obj [], rfl, rfl⟩)

/-- Case analysis of a successful navigation: `spec` was absent (and is
created holding an empty overrides list), or `spec` existed and `overrides`
was absent (and is created empty), or both existed. -/
theorem navigate_cases (fields f sf : List (String × Json)) (ovs : List Json)
    (h : navigate (Json.obj fields) = Except.ok (f, sf, ovs)) :
    (dGet? fields "spec" = none ∧ f = fields ++ [("spec", Json.obj [])] ∧
      sf = [("overrides", Json.arr [])] ∧ ovs = []) ∨
    (∃ sfs, dGet? fields "spec" = some (Json.obj sfs) ∧ f = fields ∧
      ((dGet? sfs "overrides" = none ∧ sf = sfs ++ [("overrides", Json.arr [])] ∧
          ovs = []) ∨
       (dGet? sfs "overrides" = some (Json.arr ovs) ∧ sf = sfs))) := by
  unfold navigate at h
  cases h1 : dGet? fields "spec" with
  | none =>
      simp [dSetdefault, h1, dGet?] at h
      obtain ⟨rfl, rfl, rfl⟩ := h
      exact Or.inl ⟨rfl, rfl, rfl, rfl⟩
  | some v =>
      cases v with
      | obj sfs =>
          cases h2 : dGet? sfs "overrides" with
          | none =>
              simp [dSetdefault, h1, h2] at h
              obtain ⟨rfl, rfl, rfl⟩ := h
              exact Or.inr ⟨sfs, rfl, rfl, Or.inl ⟨h2, rfl, rfl⟩⟩
          | some w =>
              cases w with
              | arr ovs0 =>
                  simp [dSetdefault, h1, h2] at h
                  obtain ⟨rfl, rfl, rfl⟩ := h
                  exact Or.inr ⟨sfs, rfl, rfl, Or.inr ⟨h2, rfl⟩⟩
              | null => simp [dSetdefault, h1, h2] at h
              | bool b => simp [dSetdefault, h1, h2] at h
              | num n => simp [dSetdefault, h1, h2] at h
              | str s => simp [dSetdefault, h1, h2] at h
              | obj fs2 => simp [dSetdefault, h1, h2] at h
      | null => simp [dSetdefault, h1] at h
      | bool b => simp [dSetdefault, h1] at h
      | num n => simp [dSetdefault, h1] at h
      | str s => simp [dSetdefault, h1] at h
      | arr es => simp [dSetdefault, h1] at h

/-- Claim C10: a successful run changes nothing outside the targeted
override.  The resulting document agrees with the input on every top-level
key other than `spec` and on every `spec` key other than `overrides`
(beyond the creation of an empty `spec` or `spec.overrides` when absent),
and the new overrides list is the old one unchanged, or the old one with
the single new entry appended at the end, or the old one with exactly one
matching entry replaced in place by its unmanaged version — so every
non-matching entry and the relative order of pre-existing entries are
preserved. -/
theorem claim_C10 (ns nm : String) (fields : List (String × Json))
    (doc' : Json) (md : Bool)
    (h : merge_override ns nm (Json.obj fields) = Except.ok (doc', md)) :
    ∃ fields' sfields' ovs ovs',
      doc' = Json.obj fields' ∧
      getOverrides (Json.obj fields) = some ovs ∧
      (∀ k, k ≠ "spec" → dGet? fields' k = dGet? fields k) ∧
      dGet? fields' "spec" = some (Json.obj sfields') ∧
      (∀ k, k ≠ "overrides" →
        dGet? sfields' k = (match dGet? fields "spec" with
                            | some (Json.obj sfs) => dGet? sfs k
                            | _ => none)) ∧
      dGet? sfields' "overrides" = some (Json.arr ovs') ∧
      (ovs' = ovs ∨ ovs' = ovs ++ [newEntry ns nm] ∨
        ∃ p o q, ovs = p ++ o :: q ∧ isMatch ns nm o = true ∧
          ovs' = p ++ setUnmanagedTrue o :: q) := by
  unfold merge_override at h
  cases hn : navigate (Json.obj fields) with
  | error e => rw [hn] at h; simp at h
  | ok t =>
      obtain ⟨f, sf, ovs⟩ := t
      rw [hn] at h
      dsimp only at h
      cases hl : mergeLoop ns nm ovs with
      | error e => rw [hl] at h; simp at h
      | ok p =>
          obtain ⟨ovs', md'⟩ := p
          rw [hl] at h
          simp at h
          obtain ⟨rfl, rfl⟩ := h
          have hshape := mergeLoop_shape ns nm ovs ovs' _ hl
          have hget : getOverrides (Json.obj fields) = some ovs := by
            simp [getOverrides, hn]
          rcases navigate_cases fields f sf ovs hn with
            ⟨h1, rfl, rfl, rfl⟩ | ⟨sfs, h1, rfl, hcase⟩
          · refine ⟨fields ++ [("spec", Json.obj [("overrides", Json.arr ovs')])],
              [("overrides", Json.arr ovs')], [], ovs', ?_, hget, ?_, ?_, ?_, ?_,
              hshape⟩
            · simp [rebuild, dSet, dSet_append_of_absent _ _ _ _ h1]
            · intro k hk
              exact dGet?_append_ne fields "spec" k _ hk
            · rw [dGet?_append_of_absent fields _ "spec" h1]
              simp [dGet?]
            · intro k hk
              rw [h1]
              simp [dGet?, Ne.symm hk]
            · simp [dGet?]
          · rcases hcase with ⟨h2, rfl, rfl⟩ | ⟨h2, rfl⟩
            · refine ⟨dSet f "spec"
                  (Json.obj (sfs ++ [("overrides", Json.arr ovs')])),
                sfs ++ [("overrides", Json.arr ovs')], [], ovs', ?_, hget, ?_, ?_,
                ?_, ?_, hshape⟩
              · simp [rebuild, dSet_append_of_absent _ _ _ _ h2]
              · intro k hk
                exact dGet?_dSet_ne f "spec" k _ hk
              · exact dGet?_dSet_self f "spec" _
              · intro k hk
                rw [h1, dGet?_append_ne sfs "overrides" k _ hk]
              · rw [dGet?_append_of_absent sfs _ "overrides" h2]
                simp [dGet?]
            · refine ⟨dSet f "spec" (Json.obj (dSet sf "overrides" (Json.arr ovs'))),
                dSet sf "overrides" (Json.arr ovs'), ovs, ovs', rfl, hget, ?_, ?_,
                ?_, ?_, hshape⟩
              · intro k hk
                exact dGet?_dSet_ne f "spec" k _ hk
              · exact dGet?_dSet_self f "spec" _
              · intro k hk
                rw [h1, dGet?_dSet_ne sf "overrides" k _ hk]
              · exact dGet?_dSet_self sf "overrides" _

/-- Witness for C10 at a spec-less document: only the created
`spec.overrides` path differs from the input. -/
theorem witness_C10 :
    ∃ fields' sfields' ovs ovs',
      (Json.obj (([] : List (String × Json)) ++
          [("spec", Json.obj [("overrides", Json.arr [newEntry "x" "y"])])])) =
        Json.obj fields' ∧
      getOverrides (Json.obj ([] : List (String × Json))) = some ovs ∧
      (∀ k, k ≠ "spec" → dGet? fields' k = dGet? ([] : List (String × Json)) k) ∧
      dGet? fields' "spec" = some (Json.obj sfields') ∧
      (∀ k, k ≠ "overrides" →
        dGet? sfields' k =
          (match dGet? ([] : List (String × Json)) "spec" with
           | some (Json.obj sfs) => dGet? sfs k
           | _ => none)) ∧
      dGet? sfields' "overrides" = some (Json.arr ovs') ∧
      (ovs' = ovs ∨ ovs' = ovs ++ [newEntry "x" "y"] ∨
        ∃ p o q, ovs = p ++ o :: q ∧ isMatch "x" "y" o = true ∧
          ovs' = p ++ setUnmanagedTrue o :: q) :=
  claim_C10 "x" "y" [] _ true rfl

end CvoUnmanage
